import Mathlib

/-!
Verification of `nitransforms/linear.py` (linear transforms on image data).

This file is a shallow embedding of the module into Lean 4:

* numpy 4x4 float arrays become `Matrix (Fin 4) (Fin 4) ℚ` (exact rational
  arithmetic; floating-point rounding is out of scope),
* `np.linalg.inv` becomes `npinv` (returning `none` on a singular input,
  modelling the `LinAlgError` exception),
* fallible Python constructors/methods become `Except`-valued functions whose
  error type enumerates the exception raised,
* the external collaborators (`nitransforms.base.ImageGrid`,
  `nitransforms.io` factories, nibabel image loading, scipy interpolation)
  are modelled as explicit data/oracle parameters, as described at each
  definition.

Every definition is translated from the source file; doc comments name the
Python symbol and line range it embeds.
-/

abbrev M4 : Type := Matrix (Fin 4) (Fin 4) ℚ

abbrev V4 : Type := Fin 4 → ℚ

abbrev P3 : Type := Fin 3 → ℚ

/-- Model of `np.linalg.inv` over exact rationals: the inverse of a square
matrix via the determinant/adjugate formula, with `none` modelling the
`LinAlgError` raised on a singular input. -/
def npinv (a : M4) : Option M4 :=
  if a.det = 0 then none else some (a.det⁻¹ • a.adjugate)

/-- Model of `nitransforms.base.ImageGrid` / `SpatialReference`.
Modelled from the spec: `nitransforms.base` is not part of the sources; the
spec says a SpatialGrid "exposes a flattened sequence of physical sample
coordinates, a shape, and a voxel-affine; read-only from the core
perspective". `coords` is that flattened sequence (`ndcoords`, already in
physical/RAS coordinates, transposed to one point per entry). -/
structure ImageGridT where
  shape : List Nat
  affine : M4
  coords : List P3

/-- Embedding of the `Affine` object state: `__slots__ = ("_matrix", "_inverse")`
plus the `_reference` slot inherited from `TransformBase`. -/
structure AffineT where
  matrix : M4
  inverse : M4
  reference : Option ImageGridT

/-- Exceptions that `Affine.__init__` (lines 67-84) can raise, plus the two
numpy errors reachable through the `matrix[3, :]` access and the
`np.allclose` broadcast on non-4x4 square inputs:
`notTwoD`/`notSquare` = the two `TypeError`s, `indexErr` = `IndexError` from
`matrix[3, :]` when the matrix has fewer than 4 rows, `broadcastErr` = the
broadcasting `ValueError` from `np.allclose(row, (0, 0, 0, 1))` when the row
is longer than 4, `badLastRow` = the documented `ValueError`, `singular` =
`np.linalg.LinAlgError` from `np.linalg.inv`. -/
inductive InitErr where
  | notTwoD
  | notSquare
  | indexErr
  | broadcastErr
  | badLastRow
  | singular
deriving DecidableEq

/-- The expected last row `(0, 0, 0, 1)` of a homogeneous matrix. -/
def lastRow : V4 := ![0, 0, 0, 1]

/-- Default absolute tolerance of `np.allclose`. -/
def ATOL : ℚ := 1 / 100000000

/-- Default relative tolerance of `np.allclose`. -/
def RTOL : ℚ := 1 / 100000

/-- Model of `np.allclose(v, w)` for two length-4 vectors with numpy
default tolerances: elementwise `|v i - w i| <= atol + rtol * |w i|`. -/
def allclose4 (v w : V4) : Bool :=
  decide (∀ i, |v i - w i| ≤ ATOL + RTOL * |w i|)

/-- Embedding of `Affine.__init__` (lines 34-84) specialised to a 4x4 input
(the general, shape-checking entry point over an arbitrary numpy array is
`affineInitNp` below).  The last row of the input is checked against
`(0, 0, 0, 1)` with `np.allclose`, then force-normalised to exactly
`(0, 0, 0, 1)`, and the exact inverse is computed and cached. -/
def affineInit (m : M4) (ref : Option ImageGridT) : Except InitErr AffineT :=
  if allclose4 (m 3) lastRow then
    match npinv (m.updateRow 3 lastRow) with
    | some mi => Except.ok ⟨m.updateRow 3 lastRow, mi, ref⟩
    | none => Except.error InitErr.singular
  else Except.error InitErr.badLastRow

/-- Embedding of `Affine.__invert__` (lines 103-114):
`return self.__class__(self._inverse)` — a fresh construction from the cached
inverse, with no reference. -/
def invertA (a : AffineT) : Except InitErr AffineT :=
  affineInit a.inverse none

/-- Invariant satisfied by every successfully constructed `Affine`: the
matrix has exact last row `(0, 0, 0, 1)` and the cached inverse is the exact
linear-algebra inverse computed by `np.linalg.inv`. -/
def ValidA (a : AffineT) : Prop :=
  a.matrix 3 = lastRow ∧ npinv a.matrix = some a.inverse

theorem npinv_eq {a : M4} (h : a.det ≠ 0) : npinv a = some a⁻¹ := by
  unfold npinv
  rw [if_neg h, Matrix.inv_def, Ring.inverse_eq_inv]

theorem npinv_some {a b : M4} (h : npinv a = some b) :
    a.det ≠ 0 ∧ b = a⁻¹ := by
  by_cases hd : a.det = 0
  · simp [npinv, hd] at h
  · rw [npinv_eq hd] at h
    exact ⟨hd, (Option.some_injective _ h).symm⟩

theorem npinv_of_inverse {a b : M4} (h1 : a * b = 1) :
    npinv a = some b := by
  have hu : IsUnit a.det := Matrix.isUnit_det_of_right_inverse h1
  have hd : a.det ≠ 0 := by
    intro h0
    rw [h0] at hu
    exact (by norm_num : ¬ IsUnit (0 : ℚ)) hu
  rw [npinv_eq hd, Matrix.inv_eq_right_inv h1]

theorem npinv_one : npinv (1 : M4) = some 1 :=
  npinv_of_inverse (one_mul 1)

theorem npinv_flip {a b : M4} (h : npinv a = some b) : npinv b = some a := by
  obtain ⟨hd, hb⟩ := npinv_some h
  have hu : IsUnit a.det := isUnit_iff_ne_zero.mpr hd
  have h2 : b * a = 1 := by rw [hb]; exact Matrix.nonsing_inv_mul a hu
  exact npinv_of_inverse h2

theorem mul_of_npinv {a b : M4} (h : npinv a = some b) :
    a * b = 1 ∧ b * a = 1 := by
  obtain ⟨hd, hb⟩ := npinv_some h
  have hu : IsUnit a.det := isUnit_iff_ne_zero.mpr hd
  subst hb
  exact ⟨Matrix.mul_nonsing_inv a hu, Matrix.nonsing_inv_mul a hu⟩

theorem allclose4_self (v : V4) : allclose4 v v = true := by
  simp [allclose4, ATOL, RTOL]
  intro i
  positivity

theorem updateRow_lastRow_of_eq {m : M4} (h : m 3 = lastRow) :
    m.updateRow 3 lastRow = m := by
  rw [← h, Matrix.updateRow_eq_self]

theorem affineInit_ok {m : M4} {r : Option ImageGridT} {a : AffineT}
    (h : affineInit m r = Except.ok a) :
    ValidA a ∧ a.matrix = m.updateRow 3 lastRow ∧ a.reference = r := by
  unfold affineInit at h
  by_cases hc : allclose4 (m 3) lastRow = true
  · rw [if_pos hc] at h
    cases hi : npinv (m.updateRow 3 lastRow) with
    | none => rw [hi] at h; exact absurd h (by simp)
    | some mi =>
      rw [hi] at h
      cases h
      refine ⟨⟨?_, hi⟩, rfl, rfl⟩
      exact Matrix.updateRow_self
  · rw [if_neg hc] at h
    exact absurd h (by simp)

theorem row3_of_inverse {a b : M4} (h : npinv a = some b)
    (ha : a 3 = lastRow) : b 3 = lastRow := by
  obtain ⟨h1, _⟩ := mul_of_npinv h
  funext j
  have h3 : (a * b) 3 j = (1 : M4) 3 j := by rw [h1]
  rw [Matrix.mul_apply] at h3
  have hsum : ∑ k, a 3 k * b k j = b 3 j := by
    rw [ha]
    simp [lastRow, Fin.sum_univ_four, Matrix.vecHead, Matrix.vecTail]
  rw [hsum] at h3
  rw [h3]
  fin_cases j <;>
    simp [lastRow, Matrix.one_apply, Matrix.vecHead, Matrix.vecTail]

theorem affineInit_of_valid {a : AffineT} (h : ValidA a)
    (r : Option ImageGridT) :
    affineInit a.matrix r = Except.ok ⟨a.matrix, a.inverse, r⟩ := by
  obtain ⟨h3, hi⟩ := h
  unfold affineInit
  rw [h3, allclose4_self, if_pos rfl, updateRow_lastRow_of_eq h3, hi]

theorem invertA_ok {a : AffineT} (h : ValidA a) :
    invertA a = Except.ok ⟨a.inverse, a.matrix, none⟩ := by
  obtain ⟨h3, hi⟩ := h
  have hrow : a.inverse 3 = lastRow := row3_of_inverse hi h3
  have hflip : npinv a.inverse = some a.matrix := npinv_flip hi
  unfold invertA affineInit
  rw [hrow, allclose4_self, if_pos rfl, updateRow_lastRow_of_eq hrow, hflip]

theorem row3_mul {a b : M4} (ha : a 3 = lastRow) (hb : b 3 = lastRow) :
    (a * b) 3 = lastRow := by
  funext j
  rw [Matrix.mul_apply]
  have hsum : ∑ k, a 3 k * b k j = b 3 j := by
    rw [ha]
    simp [lastRow, Fin.sum_univ_four, Matrix.vecHead, Matrix.vecTail]
  rw [hsum, hb]

/-- Operand of `Affine.__matmul__`: either a raw matrix (a numpy array) or an
already-constructed `Affine` instance. -/
inductive MatOrXfm where
  | raw (m : M4)
  | xfm (a : AffineT)

/-- The implicit promotion at the top of `__matmul__` (lines 131-134):
`_b = self.__class__(b)` when `b` is not an `Affine` already. -/
def asAffine : MatOrXfm → Except InitErr AffineT
  | MatOrXfm.raw m => affineInit m none
  | MatOrXfm.xfm a => Except.ok a

/-- Embedding of `Affine.__matmul__` (lines 116-139):
`retval = self.__class__(self.matrix.dot(_b.matrix))`, then
`if _b.reference: retval.reference = _b.reference`. -/
def matmulA (a : AffineT) (b : MatOrXfm) : Except InitErr AffineT := do
  let bx ← asAffine b
  let c ← affineInit (a.matrix * bx.matrix) none
  Except.ok (if bx.reference.isSome then { c with reference := bx.reference } else c)

/-- Homogeneous lift of one point: `_as_homogeneous` appends a 1 per row. -/
def homog (p : P3) : V4 := ![p 0, p 1, p 2, 1]

/-- Drop the homogeneous coordinate: the `[..., :-1]` slice in `Affine.map`. -/
def proj3 (v : V4) : P3 := ![v 0, v 1, v 2]

/-- Embedding of `Affine.map` (lines 151-181) on a single point: lift to
homogeneous coordinates, multiply by `matrix` (or by the cached `inverse`
when `inverse=True`), return the first three coordinates. -/
def mapPoint (a : AffineT) (inverse : Bool) (p : P3) : P3 :=
  proj3 ((if inverse then a.inverse else a.matrix).mulVec (homog p))

/-- `Affine.map` on an N x 3 point set (one list entry per row). -/
def mapA (a : AffineT) (inverse : Bool) (pts : List P3) : List P3 :=
  pts.map (mapPoint a inverse)

/-- Embedding of the `LinearTransformsMapping` state: the stacked batch of
matrices (`_matrix`, axis 0 = series entry) and the batch of their inverses
(`_inverse`). -/
structure SeriesT where
  matrices : List M4
  inverses : List M4
  reference : Option ImageGridT

/-- The per-entry promotion inside `LinearTransformsMapping.__init__` (lines
315-321): every raw entry goes through the `Affine` constructor and the
resulting (validated, last-row-normalised) matrix is stacked. -/
def stackMatrices : List M4 → Except InitErr (List M4)
  | [] => Except.ok []
  | m :: rest => do
    let a ← affineInit m none
    let tail ← stackMatrices rest
    Except.ok (a.matrix :: tail)

/-- The batched inverse `np.linalg.inv(self._matrix)` (line 322): an
independent exact inverse per entry, no cross-entry coupling. -/
def batchInv : List M4 → Except InitErr (List M4)
  | [] => Except.ok []
  | m :: rest =>
    match npinv m with
    | some mi => do
      let tail ← batchInv rest
      Except.ok (mi :: tail)
    | none => Except.error InitErr.singular

/-- Embedding of `LinearTransformsMapping.__init__` (lines 283-322). -/
def seriesInit (ms : List M4) (ref : Option ImageGridT) :
    Except InitErr SeriesT := do
  let ns ← stackMatrices ms
  let invs ← batchInv ns
  Except.ok ⟨ns, invs, ref⟩

/-- A homogeneous 4-vector as the list of its entries (the innermost axis of
the numpy result array). -/
def vec4List (v : V4) : List ℚ := [v 0, v 1, v 2, v 3]

/-- Embedding of `LinearTransformsMapping.map` (lines 337-388):
`np.swapaxes(affine.dot(coords), 1, 2)` — for each transform of the batch
(axis 0), for each input point (axis 1), the full homogeneous product
vector (axis 2, length 4: unlike `Affine.map`, no `[..., :-1]` slice is
applied here). -/
def seriesMap (s : SeriesT) (inverse : Bool) (pts : List P3) :
    List (List (List ℚ)) :=
  (if inverse then s.inverses else s.matrices).map
    (fun a => pts.map (fun p => vec4List (a.mulVec (homog p))))

theorem stackMatrices_ok {ms ns : List M4}
    (h : stackMatrices ms = Except.ok ns) :
    ns.length = ms.length ∧ ∀ n ∈ ns, n 3 = lastRow := by
  induction ms generalizing ns with
  | nil =>
    cases h
    exact ⟨rfl, by simp⟩
  | cons m rest ih =>
    simp only [stackMatrices, bind, Except.bind] at h
    cases ha : affineInit m none with
    | error e => rw [ha] at h; exact absurd h (by simp)
    | ok a =>
      rw [ha] at h
      cases ht : stackMatrices rest with
      | error e => rw [ht] at h; exact absurd h (by simp)
      | ok tail =>
        rw [ht] at h
        cases h
        obtain ⟨hlen, hrows⟩ := ih ht
        refine ⟨by simp [hlen], ?_⟩
        intro n hn
        rcases List.mem_cons.mp hn with hn | hn
        · subst hn
          exact ((affineInit_ok ha).1).1
        · exact hrows n hn

theorem batchInv_ok {ns invs : List M4} (h : batchInv ns = Except.ok invs) :
    List.Forall₂ (fun n i => npinv n = some i) ns invs := by
  induction ns generalizing invs with
  | nil =>
    cases h
    exact List.Forall₂.nil
  | cons n rest ih =>
    simp only [batchInv] at h
    cases hn : npinv n with
    | none => rw [hn] at h; exact absurd h (by simp)
    | some mi =>
      rw [hn] at h
      simp only [bind, Except.bind] at h
      cases ht : batchInv rest with
      | error e => rw [ht] at h; exact absurd h (by simp)
      | ok tail =>
        rw [ht] at h
        cases h
        exact List.Forall₂.cons hn (ih ht)

theorem seriesInit_ok {ms : List M4} {ref : Option ImageGridT} {s : SeriesT}
    (h : seriesInit ms ref = Except.ok s) :
    s.matrices.length = ms.length ∧
    s.inverses.length = ms.length ∧
    (∀ n ∈ s.matrices, n 3 = lastRow) ∧
    List.Forall₂ (fun n i => npinv n = some i) s.matrices s.inverses ∧
    s.reference = ref := by
  simp only [seriesInit, bind, Except.bind] at h
  cases hs : stackMatrices ms with
  | error e => rw [hs] at h; exact absurd h (by simp)
  | ok ns =>
    rw [hs] at h
    dsimp only at h
    cases hb : batchInv ns with
    | error e => rw [hb] at h; exact absurd h (by simp)
    | ok invs =>
      rw [hb] at h
      cases h
      obtain ⟨hlen, hrows⟩ := stackMatrices_ok hs
      have hf := batchInv_ok hb
      refine ⟨hlen, ?_, hrows, hf, rfl⟩
      show invs.length = ms.length
      rw [← List.Forall₂.length_eq hf]
      exact hlen

theorem homog_last (p : P3) : homog p 3 = 1 := rfl

theorem proj3_homog (p : P3) : proj3 (homog p) = p := by
  funext i
  fin_cases i <;> simp [homog, proj3, Matrix.vecHead, Matrix.vecTail]

theorem homog_proj3 {v : V4} (h : v 3 = 1) : homog (proj3 v) = v := by
  funext i
  fin_cases i <;>
    simp [homog, proj3, Matrix.vecHead, Matrix.vecTail]
  exact h.symm

theorem mulVec_last {m : M4} (h : m 3 = lastRow) (v : V4) :
    m.mulVec v 3 = v 3 := by
  simp [Matrix.mulVec, Matrix.dotProduct, h, lastRow, Fin.sum_univ_four,
    Matrix.vecHead, Matrix.vecTail]

theorem mapPoint_roundtrip {a : AffineT} (h : ValidA a) (p : P3) :
    mapPoint a true (mapPoint a false p) = p := by
  obtain ⟨h3, hi⟩ := h
  show proj3 (a.inverse.mulVec (homog (proj3 (a.matrix.mulVec (homog p))))) = p
  have h1 : a.matrix.mulVec (homog p) 3 = 1 := by
    rw [mulVec_last h3, homog_last]
  rw [homog_proj3 h1, Matrix.mulVec_mulVec, (mul_of_npinv hi).2,
    Matrix.one_mulVec, proj3_homog]

/-- Translation by `(1, 2, 3)`: the matrix of the docstring examples and of
the spec two-entry-series scenario (`t1`). -/
def T1 : M4 := !![1,0,0,1; 0,1,0,2; 0,0,1,3; 0,0,0,1]

/-- Translation by `(-1, -2, -3)`: the exact inverse of `T1`, and also the
second series entry `t2` of the spec scenario. -/
def T1i : M4 := !![1,0,0,-1; 0,1,0,-2; 0,0,1,-3; 0,0,0,1]

theorem T1_mul_T1i : T1 * T1i = 1 := by
  ext i j
  fin_cases i <;> fin_cases j <;>
    simp [T1, T1i, Matrix.mul_apply, Fin.sum_univ_four, Matrix.one_apply,
      Matrix.vecHead, Matrix.vecTail]

theorem T1i_mul_T1 : T1i * T1 = 1 := by
  ext i j
  fin_cases i <;> fin_cases j <;>
    simp [T1, T1i, Matrix.mul_apply, Fin.sum_univ_four, Matrix.one_apply,
      Matrix.vecHead, Matrix.vecTail]

theorem npinv_T1 : npinv T1 = some T1i := npinv_of_inverse T1_mul_T1i

theorem npinv_T1i : npinv T1i = some T1 := npinv_of_inverse T1i_mul_T1

theorem T1_row3 : T1 3 = lastRow := by
  funext j
  fin_cases j <;> simp [T1, lastRow, Matrix.vecHead, Matrix.vecTail]

theorem T1i_row3 : T1i 3 = lastRow := by
  funext j
  fin_cases j <;> simp [T1i, lastRow, Matrix.vecHead, Matrix.vecTail]

theorem one_row3 : (1 : M4) 3 = lastRow := by
  funext j
  fin_cases j <;>
    simp [lastRow, Matrix.one_apply, Matrix.vecHead, Matrix.vecTail]

theorem validA_T1 : ValidA ⟨T1, T1i, none⟩ := ⟨T1_row3, npinv_T1⟩

theorem validA_one (r : Option ImageGridT) : ValidA ⟨1, 1, r⟩ :=
  ⟨one_row3, npinv_one⟩

theorem affineInit_T1 : affineInit T1 none = Except.ok ⟨T1, T1i, none⟩ :=
  affineInit_of_valid validA_T1 none

theorem affineInit_one : affineInit 1 none = Except.ok ⟨1, 1, none⟩ :=
  affineInit_of_valid (validA_one none) none

/-- C3: inverting a successfully constructed `Affine` yields a transform
whose matrix is the original cached inverse and whose inverse is the
original cached matrix — the two cached matrices swapped.  (Over the exact
arithmetic of the embedding the reconstruction performed by `__invert__`
reproduces exactly this swapped pair; the inverse of the inverted transform
is the original matrix.) -/
theorem C3_invert_swaps {m : M4} {r : Option ImageGridT} {a : AffineT}
    (h : affineInit m r = Except.ok a) :
    invertA a = Except.ok ⟨a.inverse, a.matrix, none⟩ :=
  invertA_ok (affineInit_ok h).1

theorem C3_invert_swaps_witness :
    invertA ⟨T1, T1i, none⟩ = Except.ok ⟨T1i, T1, none⟩ :=
  C3_invert_swaps affineInit_T1

/-- C7: round-trip law — mapping a point set forward and then with
`inverse=True` recovers the original point set (exactly, over the rational
embedding). -/
theorem C7_map_roundtrip {m : M4} {r : Option ImageGridT} {a : AffineT}
    (h : affineInit m r = Except.ok a) (pts : List P3) :
    mapA a true (mapA a false pts) = pts := by
  have hv := (affineInit_ok h).1
  unfold mapA
  rw [List.map_map]
  have hc : (mapPoint a true ∘ mapPoint a false) = id :=
    funext (mapPoint_roundtrip hv)
  rw [hc, List.map_id]

theorem C7_map_roundtrip_witness :
    mapA ⟨T1, T1i, none⟩ true (mapA ⟨T1, T1i, none⟩ false [![5, 6, 7]]) =
      [![5, 6, 7]] :=
  C7_map_roundtrip affineInit_T1 [![5, 6, 7]]

/-- C5: composing `a @ b` promotes a raw-matrix `b` to an `Affine`,
multiplies the two matrices, and gives the result `b` reference when `b`
has one and no reference otherwise — `a` own reference is never used. -/
theorem C5_compose {a bx : AffineT} (b : MatOrXfm)
    (ha : ValidA a) (hb : asAffine b = Except.ok bx) (hbv : ValidA bx) :
    ∃ c, matmulA a b = Except.ok c ∧
      c.matrix = a.matrix * bx.matrix ∧
      npinv c.matrix = some c.inverse ∧
      c.reference = bx.reference := by
  obtain ⟨ha3, hai⟩ := ha
  obtain ⟨hb3, hbi⟩ := hbv
  have hrow : (a.matrix * bx.matrix) 3 = lastRow := row3_mul ha3 hb3
  have hdet : (a.matrix * bx.matrix).det ≠ 0 := by
    rw [Matrix.det_mul]
    exact mul_ne_zero (npinv_some hai).1 (npinv_some hbi).1
  have hnp : npinv (a.matrix * bx.matrix) = some (a.matrix * bx.matrix)⁻¹ :=
    npinv_eq hdet
  have hinit : affineInit (a.matrix * bx.matrix) none =
      Except.ok ⟨a.matrix * bx.matrix, (a.matrix * bx.matrix)⁻¹, none⟩ := by
    unfold affineInit
    rw [hrow, allclose4_self, if_pos rfl, updateRow_lastRow_of_eq hrow, hnp]
  cases ho : bx.reference with
  | none =>
    refine ⟨⟨a.matrix * bx.matrix, (a.matrix * bx.matrix)⁻¹, none⟩,
      ?_, rfl, hnp, rfl⟩
    simp only [matmulA, bind, Except.bind]
    rw [hb]
    dsimp only
    rw [hinit]
    dsimp only
    rw [ho]
    simp
  | some g =>
    refine ⟨⟨a.matrix * bx.matrix, (a.matrix * bx.matrix)⁻¹, some g⟩,
      ?_, rfl, hnp, by simp [ho]⟩
    simp only [matmulA, bind, Except.bind]
    rw [hb]
    dsimp only
    rw [hinit]
    dsimp only
    rw [ho]
    simp

/-- A concrete reference grid for the witnesses. -/
def someGrid : ImageGridT := ⟨[2, 2, 2], 1, []⟩

theorem C5_compose_witness :
    ∃ c, matmulA ⟨1, 1, some someGrid⟩ (MatOrXfm.raw T1) = Except.ok c ∧
      c.matrix = (1 : M4) * T1 ∧
      npinv c.matrix = some c.inverse ∧
      c.reference = none :=
  C5_compose (MatOrXfm.raw T1) (validA_one (some someGrid)) affineInit_T1
    validA_T1

theorem validA_T1i : ValidA ⟨T1i, T1, none⟩ := ⟨T1i_row3, npinv_T1i⟩

theorem affineInit_T1i : affineInit T1i none = Except.ok ⟨T1i, T1, none⟩ :=
  affineInit_of_valid validA_T1i none

theorem seriesInit_id1 :
    seriesInit [(1 : M4)] none = Except.ok ⟨[1], [1], none⟩ := by
  have hs : stackMatrices [(1 : M4)] = Except.ok [1] := by
    simp only [stackMatrices, bind, Except.bind]
    rw [affineInit_one]
  have hb : batchInv [(1 : M4)] = Except.ok [1] := by
    simp only [batchInv, bind, Except.bind]
    rw [npinv_one]
  simp only [seriesInit, bind, Except.bind]
  rw [hs]
  dsimp only
  rw [hb]

theorem seriesInit_tpair :
    seriesInit [T1, T1i] none = Except.ok ⟨[T1, T1i], [T1i, T1], none⟩ := by
  have hs : stackMatrices [T1, T1i] = Except.ok [T1, T1i] := by
    simp only [stackMatrices, bind, Except.bind]
    rw [affineInit_T1]
    dsimp only
    rw [affineInit_T1i]
  have hb : batchInv [T1, T1i] = Except.ok [T1i, T1] := by
    simp only [batchInv, bind, Except.bind]
    rw [npinv_T1]
    dsimp only
    rw [npinv_T1i]
  simp only [seriesInit, bind, Except.bind]
  rw [hs]
  dsimp only
  rw [hb]

/-- The origin `(0, 0, 0)` used by the docstring/scenario examples. -/
def origin3 : P3 := fun _ => 0

theorem homog_origin : homog origin3 = ![0, 0, 0, 1] := rfl

theorem T1_mulVec_origin : T1.mulVec ![0, 0, 0, 1] = ![1, 2, 3, 1] := by
  funext i
  fin_cases i <;>
    simp [T1, Matrix.mulVec, Matrix.dotProduct, Fin.sum_univ_four,
      Matrix.vecHead, Matrix.vecTail]

theorem T1i_mulVec_origin : T1i.mulVec ![0, 0, 0, 1] = ![-1, -2, -3, 1] := by
  funext i
  fin_cases i <;>
    simp [T1i, Matrix.mulVec, Matrix.dotProduct, Fin.sum_univ_four,
      Matrix.vecHead, Matrix.vecTail]

/-- The output shape asserted by the spec for the batched map: an N x M x D
nested array (all inner lengths equal). -/
def isShapeNMD (out : List (List (List ℚ))) (n m d : Nat) : Bool :=
  (out.length == n) && out.all (fun block =>
    (block.length == m) && block.all (fun row => row.length == d))

/-- C2 counterexample: for the length-1 identity series (so N = 1, D = 3)
applied to one point (M = 1), the batched map innermost axis has length
4 = D + 1, not D — `LinearTransformsMapping.map` never strips the
homogeneous coordinate (`Affine.map` trailing `[..., :-1]` slice has no
counterpart on the batched path). -/
theorem C2_counterexample :
    seriesInit [(1 : M4)] none = Except.ok ⟨[1], [1], none⟩ ∧
    isShapeNMD (seriesMap ⟨[1], [1], none⟩ false [origin3]) 1 1 3 = false ∧
    isShapeNMD (seriesMap ⟨[1], [1], none⟩ false [origin3]) 1 1 4 = true :=
  ⟨seriesInit_id1, rfl, rfl⟩

/-- C2 (amended): for every series of N transforms (built over D = 3
spatial dimensions) and M input points, the batched map returns an
N x M x (D+1) array — transform-major, then point-major, then the
homogeneous coordinate axis of length 4; entry (t, m) is the t-th matrix
(inverse matrix under `inverse=True`) applied to the homogeneous lift of
the m-th point.  Downstream code slices the first D entries of the last
axis itself. -/
theorem C2_seriesMap_shape {ms : List M4} {ref : Option ImageGridT}
    {s : SeriesT} (h : seriesInit ms ref = Except.ok s)
    (inverse : Bool) (pts : List P3) :
    (seriesMap s inverse pts).length = ms.length ∧
    (∀ block ∈ seriesMap s inverse pts,
      block.length = pts.length ∧ ∀ row ∈ block, row.length = 4) ∧
    (∀ t mi : Nat,
      (seriesMap s inverse pts)[t]?.bind (fun block => block[mi]?) =
        (if inverse then s.inverses else s.matrices)[t]?.bind
          (fun a => pts[mi]?.map
            (fun p => vec4List (a.mulVec (homog p))))) := by
  obtain ⟨hm, hi, _, _, _⟩ := seriesInit_ok h
  refine ⟨?_, ?_, ?_⟩
  · cases inverse <;> simp [seriesMap, hm, hi]
  · intro block hb
    unfold seriesMap at hb
    obtain ⟨a, _, rfl⟩ := List.mem_map.mp hb
    refine ⟨List.length_map _ _, ?_⟩
    intro row hr
    obtain ⟨p, _, rfl⟩ := List.mem_map.mp hr
    rfl
  · intro t mi
    unfold seriesMap
    rw [List.getElem?_map]
    cases hg : (if inverse then s.inverses else s.matrices)[t]? with
    | none => rfl
    | some a => simp [List.getElem?_map]

theorem C2_seriesMap_shape_witness :
    (seriesMap ⟨[1], [1], none⟩ false [origin3]).length = 1 :=
  (C2_seriesMap_shape seriesInit_id1 false [origin3]).1

/-- C8 counterexample: for the two-entry series of translations
`t1 = (1,2,3)` and `t2 = (-1,-2,-3)`, mapping the origin with
`inverse=True` gives `(1, 2, 3)` under entry 1 (the inverse of a
translation by `t2` translates by `-t2 = (1,2,3)`), not `(1, -2, -3)` as
the claim states. -/
theorem C8_counterexample :
    seriesInit [T1, T1i] none = Except.ok ⟨[T1, T1i], [T1i, T1], none⟩ ∧
    seriesMap ⟨[T1, T1i], [T1i, T1], none⟩ true [origin3] =
      [[[-1, -2, -3, 1]], [[1, 2, 3, 1]]] ∧
    ([(1 : ℚ), 2, 3, 1] : List ℚ) ≠ [1, -2, -3, 1] := by
  refine ⟨seriesInit_tpair, ?_, by norm_num⟩
  show [[vec4List (T1i.mulVec (homog origin3))],
        [vec4List (T1.mulVec (homog origin3))]] = _
  rw [homog_origin, T1_mulVec_origin, T1i_mulVec_origin]
  rfl

/-- C8 (amended): the two-entry series of pure translations `t1 = (1,2,3)`,
`t2 = (-1,-2,-3)`, queried with `inverse=True` at the origin, maps it to
`(-1,-2,-3)` under entry 0 and to `(1,2,3)` under entry 1 (each vector
carrying its trailing homogeneous 1 per C2). -/
theorem C8_two_translations :
    seriesInit [T1, T1i] none = Except.ok ⟨[T1, T1i], [T1i, T1], none⟩ ∧
    seriesMap ⟨[T1, T1i], [T1i, T1], none⟩ true [origin3] =
      [[[-1, -2, -3, 1]], [[1, 2, 3, 1]]] := by
  refine ⟨seriesInit_tpair, ?_⟩
  show [[vec4List (T1i.mulVec (homog origin3))],
        [vec4List (T1.mulVec (homog origin3))]] = _
  rw [homog_origin, T1_mulVec_origin, T1i_mulVec_origin]
  rfl

/-- A numpy array as seen right after `matrix = np.array(matrix)` at line 68:
its shape, and its row-major (C-order) flattened data. -/
structure NpArray where
  shape : List Nat
  data : List ℚ

/-- The 4x4 matrix held by a `[4, 4]`-shaped `NpArray` (row-major layout). -/
def mk4 (a : NpArray) : M4 :=
  Matrix.of fun i j => a.data.getD (4 * (i : Nat) + (j : Nat)) 0

/-- Embedding of `Affine.__init__` (lines 34-84) over a general numpy array,
following the code order of evaluation: `matrix.ndim != 2` raises
`TypeError`; `matrix.shape[0] != matrix.shape[1]` raises `TypeError`; then
`np.allclose(self._matrix[3, :], (0, 0, 0, 1))` is evaluated, which first
indexes row 3 (`IndexError` when the square array has at most 3 rows) and
then broadcasts the row against the length-4 tuple (`ValueError` when the
row is longer than 4); only on a 4x4 array do the last-row tolerance
check, the exact normalisation and the inversion of `affineInit` run. -/
def affineInitNp (a : NpArray) (ref : Option ImageGridT) :
    Except InitErr AffineT :=
  if a.shape.length ≠ 2 then Except.error InitErr.notTwoD
  else
    match a.shape with
    | [r, c] =>
      if r ≠ c then Except.error InitErr.notSquare
      else if r ≤ 3 then Except.error InitErr.indexErr
      else if r ≠ 4 then Except.error InitErr.broadcastErr
      else affineInit (mk4 a) ref
    | _ => Except.error InitErr.notTwoD

theorem allclose4_false {v w : V4} (i : Fin 4)
    (h : ¬ |v i - w i| ≤ ATOL + RTOL * |w i|) : allclose4 v w = false := by
  simp [allclose4]
  exact ⟨i, not_le.mp h⟩

/-- C4 counterexample: the 3x3 identity is a 2-dimensional square array
whose last row is not approximately `(0, 0, 0, 1)`, yet construction fails
with the `IndexError` raised by the `matrix[3, :]` access — not with the
last-row validation `ValueError` that the claim promises for every
2-dimensional square input with a bad last row. -/
theorem C4_counterexample :
    affineInitNp ⟨[3, 3], [1, 0, 0, 0, 1, 0, 0, 0, 1]⟩ none =
      Except.error InitErr.indexErr ∧
    InitErr.indexErr ≠ InitErr.badLastRow :=
  ⟨rfl, by decide⟩

/-- C4 (amended): non-2-D and non-square inputs fail with the shape
`TypeError`s; among 2-D square inputs, the last-row machinery only behaves
as documented at size exactly 4x4 — smaller squares fail with an
`IndexError`, larger ones with a broadcasting `ValueError`; a 4x4 input
whose last row fails the tolerance check raises the validation
`ValueError`; and a 4x4 input that constructs successfully stores the
input matrix with its last row set to exactly `(0, 0, 0, 1)` and every
other row untouched (no other coercion). -/
theorem C4_init_validation :
    (∀ (a : NpArray) (r : Option ImageGridT), a.shape.length ≠ 2 →
      affineInitNp a r = Except.error InitErr.notTwoD) ∧
    (∀ (n m : Nat) (d : List ℚ) (r : Option ImageGridT), n ≠ m →
      affineInitNp ⟨[n, m], d⟩ r = Except.error InitErr.notSquare) ∧
    (∀ (n : Nat) (d : List ℚ) (r : Option ImageGridT), n ≤ 3 →
      affineInitNp ⟨[n, n], d⟩ r = Except.error InitErr.indexErr) ∧
    (∀ (n : Nat) (d : List ℚ) (r : Option ImageGridT), 5 ≤ n →
      affineInitNp ⟨[n, n], d⟩ r = Except.error InitErr.broadcastErr) ∧
    (∀ (d : List ℚ) (r : Option ImageGridT),
      allclose4 (mk4 ⟨[4, 4], d⟩ 3) lastRow = false →
      affineInitNp ⟨[4, 4], d⟩ r = Except.error InitErr.badLastRow) ∧
    (∀ (d : List ℚ) (r : Option ImageGridT) (x : AffineT),
      affineInitNp ⟨[4, 4], d⟩ r = Except.ok x →
      x.matrix = (mk4 ⟨[4, 4], d⟩).updateRow 3 lastRow ∧
      x.matrix 3 = lastRow ∧
      ∀ i : Fin 4, i ≠ 3 → x.matrix i = mk4 ⟨[4, 4], d⟩ i) := by
  refine ⟨?_, ?_, ?_, ?_, ?_, ?_⟩
  · intro a r h
    unfold affineInitNp
    rw [if_pos h]
  · intro n m d r h
    simp [affineInitNp, h]
  · intro n d r h
    simp [affineInitNp, h]
  · intro n d r h
    have h1 : ¬ n ≤ 3 := by omega
    have h2 : n ≠ 4 := by omega
    simp [affineInitNp, h1, h2]
  · intro d r hc
    simp [affineInitNp, affineInit, hc]
  · intro d r x h
    have hx : affineInit (mk4 ⟨[4, 4], d⟩) r = Except.ok x := by
      simpa [affineInitNp] using h
    obtain ⟨⟨h3, _⟩, hm, _⟩ := affineInit_ok hx
    refine ⟨hm, h3, ?_⟩
    intro i hi
    rw [hm, Matrix.updateRow_ne hi]

theorem C4_init_validation_witness :
    affineInitNp ⟨[4, 2, 2], []⟩ none = Except.error InitErr.notTwoD ∧
    affineInitNp ⟨[2, 3], []⟩ none = Except.error InitErr.notSquare ∧
    affineInitNp ⟨[3, 3], []⟩ none = Except.error InitErr.indexErr ∧
    affineInitNp ⟨[5, 5], []⟩ none = Except.error InitErr.broadcastErr ∧
    affineInitNp ⟨[4, 4], List.replicate 16 0⟩ none =
      Except.error InitErr.badLastRow :=
  ⟨C4_init_validation.1 ⟨[4, 2, 2], []⟩ none (by decide),
   C4_init_validation.2.1 2 3 [] none (by decide),
   C4_init_validation.2.2.1 3 [] none (by decide),
   C4_init_validation.2.2.2.1 5 [] none (by decide),
   C4_init_validation.2.2.2.2.1 (List.replicate 16 0) none
     (allclose4_false 3 (by
       show ¬ |(0 : ℚ) - 1| ≤ ATOL + RTOL * |(1 : ℚ)|
       norm_num [ATOL, RTOL]))⟩

/-- Reference argument of `apply`: either a genuine voxel grid (`ImageGrid`)
or a non-grid sampling (a scattered point cloud / surface).  Modelled from
the spec: the reference machinery lives in `nitransforms.base`, which is
not part of the sources; the spec distinguishes "a genuine voxel grid (not
a scattered point cloud)". -/
inductive RefT where
  | grid (g : ImageGridT)
  | cloud (pts : List P3)

/-- The flattened physical sample coordinates `_ref.ndcoords` (line 465,
transposed: one entry per sample point).  Modelled from the spec: a
SpatialGrid "exposes a flattened sequence of physical sample
coordinates". -/
def RefT.ndcoords : RefT → List P3
  | RefT.grid g => g.coords
  | RefT.cloud pts => pts

/-- A nibabel spatial image as consumed by `apply`: its shape (2-D/3-D, or
4-D with a trailing channel/timepoint axis), its voxel-to-RAS affine, and
its row-major (C-order) flattened data. -/
structure SpatialImg where
  shape : List Nat
  affine : M4
  data : List ℚ

/-- Exceptions raised by `apply` before its interpolation loop: failure of
`~Affine(spatialimage.affine)` (line 468), and the transforms/timepoints
mismatch `ValueError` (lines 470-474). -/
inductive ApplyErr where
  | ras2voxFail (e : InitErr)
  | dimMismatch (nXfms nVols : Nat)
deriving DecidableEq

/-- Result of `apply` (lines 510-516): either an image wrapping the
resampled data reshaped to the reference grid shape plus a trailing
channel axis and carrying the grid voxel affine, or — when the reference
is not an `ImageGrid` — the raw (points x channels) array, unshaped. -/
inductive ApplyResult where
  | image (shape : List Nat) (affine : M4) (data : List ℚ)
  | array (rows : List (List ℚ))

/-- `spatialimage.shape[-1]` (only consulted on nonempty shapes). -/
def lastDim (l : List Nat) : Nat := l.getLast?.getD 0

/-- The `dataobj[..., t]` slice of a C-order flattened array whose trailing
axis has length `tDim`: every `tDim`-th element starting at offset `t`. -/
def sliceLast (data : List ℚ) (tDim t : Nat) : List ℚ :=
  (List.range (data.length / tDim)).map (fun n => data.getD (n * tDim + t) 0)

/-- The array handed to `ndi.map_coordinates` for channel `t` (lines
482-501): the whole volume when the source is 2-D/3-D (`dataobj` is
hoisted out of the loop), else the per-channel `[..., t]` slice. -/
def chanData (img : SpatialImg) (t : Nat) : List ℚ :=
  if img.shape.length = 2 ∨ img.shape.length = 3 then img.data
  else sliceLast img.data (lastDim img.shape) t

/-- One row of the logical (points x channels) `resampled` array. -/
def rowAt (cols : List (List ℚ)) (n : Nat) : List ℚ :=
  cols.map (fun c => c.getD n 0)

/-- The raw (points x channels) array, one row per sample point: the
un-reshaped `resampled` value returned for non-grid references. -/
def rowsOf (nPts : Nat) (cols : List (List ℚ)) : List (List ℚ) :=
  (List.range nPts).map (rowAt cols)

/-- C-order flattening of the (points x channels) array: the element order
in which `resampled.reshape(_ref.shape + (len(self),))` reads the data. -/
def cFlatten (nPts : Nat) (cols : List (List ℚ)) : List ℚ :=
  (rowsOf nPts cols).flatten

theorem sum_map_const {α : Type} (l : List α) (c : Nat) :
    (l.map (fun _ => c)).sum = l.length * c := by
  induction l with
  | nil => simp
  | cons x t ih => simp [ih, Nat.succ_mul, Nat.add_comm]

theorem rowAt_length (cols : List (List ℚ)) (n : Nat) :
    (rowAt cols n).length = cols.length := by
  simp [rowAt]

theorem rowsOf_length (nPts : Nat) (cols : List (List ℚ)) :
    (rowsOf nPts cols).length = nPts := by
  simp [rowsOf]

theorem cFlatten_length (nPts : Nat) (cols : List (List ℚ)) :
    (cFlatten nPts cols).length = nPts * cols.length := by
  unfold cFlatten rowsOf
  rw [List.length_flatten, List.map_map]
  have hc : (List.length ∘ rowAt cols) = fun _ : Nat => cols.length :=
    funext (fun k => rowAt_length cols k)
  rw [hc, sum_map_const, List.length_range]

/-- Forward `Affine.map` by a bare matrix: the per-channel coordinate maps
inside `apply` loop (lines 488-493) use only the forward matrix of each
freshly re-constructed `Affine`, and the `[..., : _ref.ndim]` slices are
identities for the 3-D references modelled here. -/
def applyMat (m : M4) (p : P3) : P3 := proj3 (m.mulVec (homog p))

/-- Embedding of `LinearTransformsMapping.apply` (lines 405-516).  `interp`
is the `scipy.ndimage.map_coordinates` oracle with `order`, `mode`, `cval`,
`prefilter` and the output dtype frozen in: it receives the channel
source data and the source-voxel coordinates and returns the interpolated
samples.  Steps follow the code order: take the reference flattened
physical coordinates, build and invert the source voxel affine once
(`ras2vox = ~Affine(spatialimage.affine)`), check a 4-D source trailing
axis length against `len(self)` *before* allocating or interpolating
anything, then run the per-channel loop and reshape/wrap according to the
reference kind. -/
def applyTx (interp : List ℚ → List P3 → List ℚ)
    (s : SeriesT) (img : SpatialImg) (ref : RefT) :
    Except ApplyErr ApplyResult :=
  let xcoords := ref.ndcoords
  match affineInit img.affine none with
  | Except.error e => Except.error (ApplyErr.ras2voxFail e)
  | Except.ok a0 =>
    match invertA a0 with
    | Except.error e => Except.error (ApplyErr.ras2voxFail e)
    | Except.ok ras2vox =>
      if img.shape.length = 4 ∧ s.matrices.length ≠ lastDim img.shape then
        Except.error
          (ApplyErr.dimMismatch s.matrices.length (lastDim img.shape))
      else
        let cols := s.matrices.enum.map (fun tm =>
          let ycoords := xcoords.map (applyMat tm.2)
          let yvoxels := ycoords.map (applyMat ras2vox.matrix)
          interp (chanData img tm.1) yvoxels)
        match ref with
        | RefT.grid g =>
          Except.ok (ApplyResult.image (g.shape ++ [s.matrices.length])
            g.affine (cFlatten xcoords.length cols))
        | RefT.cloud _ =>
          Except.ok (ApplyResult.array (rowsOf xcoords.length cols))

/-- C6: `apply` on a 4-D source whose trailing axis length differs from the
series length fails with the dimensionality `ValueError` — and it does so
for *every* interpolation oracle, i.e. before any interpolation is
performed and with no incomplete output produced.  Hypothesis `ha`: the
source voxel affine constructs cleanly (otherwise
`~Affine(spatialimage.affine)` raises a different error one line earlier,
still before any interpolation). -/
theorem C6_apply_dim_mismatch (img : SpatialImg) {a0 : AffineT}
    (ha : affineInit img.affine none = Except.ok a0)
    (s : SeriesT) (ref : RefT)
    (h4 : img.shape.length = 4)
    (hne : s.matrices.length ≠ lastDim img.shape) :
    ∀ interp, applyTx interp s img ref =
      Except.error
        (ApplyErr.dimMismatch s.matrices.length (lastDim img.shape)) := by
  intro interp
  unfold applyTx
  rw [ha]
  dsimp only
  rw [invertA_ok (affineInit_ok ha).1]
  dsimp only
  rw [if_pos ⟨h4, hne⟩]

theorem C6_apply_dim_mismatch_witness :
    applyTx (fun _ _ => []) ⟨[1], [1], none⟩ ⟨[2, 2, 2, 3], 1, []⟩
      (RefT.cloud []) = Except.error (ApplyErr.dimMismatch 1 3) :=
  C6_apply_dim_mismatch ⟨[2, 2, 2, 3], 1, []⟩ affineInit_one
    ⟨[1], [1], none⟩ (RefT.cloud []) rfl (by decide) (fun _ _ => [])

/-- A concrete 2x2x2 reference grid for the C9 theorems. -/
def gridR : ImageGridT := ⟨[2, 2, 2], 1, List.replicate 8 origin3⟩

/-- The grid shape carried by an image-valued `apply` outcome. -/
def resultShape : Except ApplyErr ApplyResult → Option (List Nat)
  | Except.ok (ApplyResult.image sh _ _) => some sh
  | _ => none

/-- C9 counterexample: `apply` of a length-1 series over a 3-D source and
the 2x2x2 reference grid returns an image of shape `[2, 2, 2, 1]` — the
grid shape *plus a trailing length-1 channel axis* — which is not "output
shaped exactly like the reference grid" (`[2, 2, 2]`). -/
theorem C9_counterexample :
    resultShape (applyTx (fun _ cs => cs.map (fun _ => 0)) ⟨[1], [1], none⟩
      ⟨[2, 2, 2], 1, List.replicate 8 0⟩ (RefT.grid gridR)) =
      some [2, 2, 2, 1] ∧
    ([2, 2, 2, 1] : List Nat) ≠ [2, 2, 2] := by
  constructor
  · unfold applyTx
    rw [affineInit_one]
    dsimp only
    rw [invertA_ok (validA_one none)]
    dsimp only
    rw [if_neg (by decide)]
    rfl
  · decide

/-- C9 (amended): when the reference is a voxel grid, the flat
points x channels result is reshaped into the grid shape *with a trailing
channel axis* (`R.shape ++ [len(series)]`) and wrapped in an image carrying
the grid voxel affine — so a 3-D source under a length-1 series yields
the grid shape with a trailing length-1 axis, not exactly the grid shape;
when the reference is not a grid, the raw points x channels array is
returned unshaped. -/
theorem C9_apply_reshape (interp : List ℚ → List P3 → List ℚ)
    (img : SpatialImg) {a0 : AffineT}
    (ha : affineInit img.affine none = Except.ok a0)
    (s : SeriesT)
    (hdim : ¬ (img.shape.length = 4 ∧ s.matrices.length ≠ lastDim img.shape)) :
    (∀ g : ImageGridT, ∃ d : List ℚ,
      applyTx interp s img (RefT.grid g) =
        Except.ok (ApplyResult.image (g.shape ++ [s.matrices.length])
          g.affine d) ∧
      d.length = g.coords.length * s.matrices.length) ∧
    (∀ pts : List P3, ∃ rows : List (List ℚ),
      applyTx interp s img (RefT.cloud pts) =
        Except.ok (ApplyResult.array rows) ∧
      rows.length = pts.length ∧
      ∀ row ∈ rows, row.length = s.matrices.length) := by
  have hmain : ∀ ref : RefT,
      applyTx interp s img ref =
        (let xcoords := ref.ndcoords
         let cols := s.matrices.enum.map (fun tm =>
           let ycoords := xcoords.map (applyMat tm.2)
           let yvoxels := ycoords.map (applyMat
             (⟨a0.inverse, a0.matrix, none⟩ : AffineT).matrix)
           interp (chanData img tm.1) yvoxels)
         match ref with
         | RefT.grid g =>
           Except.ok (ApplyResult.image (g.shape ++ [s.matrices.length])
             g.affine (cFlatten xcoords.length cols))
         | RefT.cloud _ =>
           Except.ok (ApplyResult.array (rowsOf xcoords.length cols))) := by
    intro ref
    unfold applyTx
    rw [ha]
    dsimp only
    rw [invertA_ok (affineInit_ok ha).1]
    dsimp only
    rw [if_neg hdim]
  constructor
  · intro g
    refine ⟨_, hmain (RefT.grid g), ?_⟩
    rw [cFlatten_length]
    simp [RefT.ndcoords, List.enum_length]
  · intro pts
    refine ⟨_, hmain (RefT.cloud pts), ?_, ?_⟩
    · rw [rowsOf_length]
      simp [RefT.ndcoords]
    · intro row hr
      unfold rowsOf at hr
      obtain ⟨n, _, rfl⟩ := List.mem_map.mp hr
      rw [rowAt_length]
      simp [List.enum_length]

theorem C9_apply_reshape_witness :
    ∃ d : List ℚ,
      applyTx (fun _ cs => cs.map (fun _ => 0)) ⟨[1], [1], none⟩
        ⟨[2, 2, 2], 1, List.replicate 8 0⟩ (RefT.grid gridR) =
        Except.ok (ApplyResult.image ([2, 2, 2] ++ [1]) gridR.affine d) ∧
      d.length = gridR.coords.length * 1 :=
  (C9_apply_reshape (fun _ cs => cs.map (fun _ => 0))
    ⟨[2, 2, 2], 1, List.replicate 8 0⟩ affineInit_one
    ⟨[1], [1], none⟩ (by decide)).1 gridR

/-- The fixed candidate format order tried by `Affine.from_filename` when no
explicit `fmt` is given (line 210). -/
def FMTLIST : List String := ["itk", "lta", "afni", "fsl"]

/-- Exceptions raised by `from_filename` itself: the `FileNotFoundError` of
lines 212-220 and the final `TransformFileError` of lines 240-242.  (The
quotes that the Python messages put around the file name are omitted.) -/
inductive LoadErr where
  | fileNotFound (msg : String)
  | transformFileError (msg : String)
deriving DecidableEq

/-- Outcome of the format loop: which formats had their parser invoked
(`attempted`, in order), the `(format, reason)` pairs appended to the local
`errors` list (lines 223 and 233-234), and whether some format parsed. -/
structure TryOutcome where
  attempted : List String
  collected : List (String × String)
  parsed : Bool
deriving DecidableEq

/-- The `for potential_fmt in fmtlist` loop of `from_filename` (lines
224-238): the `itk`/`.mat` special case first flips `is_array` off, then
the candidate factory parser runs; `TransformFileError` and
`FileNotFoundError` failures are appended to `errors` and the loop
continues with the next candidate; the first success returns immediately.
`parse f isArray` is the oracle for
`get_linear_factory(f, is_array).from_filename(filename)` followed by
`struct.to_ras(...)`, for the one file under consideration; an
`Except.error reason` models a caught exception carrying `reason`. -/
def tryFormats (parse : String → Bool → Except String Unit)
    (suffixIsMat : Bool) : List String → Bool → TryOutcome
  | [], _ => ⟨[], [], false⟩
  | f :: rest, isArray =>
    let isArray2 := if f = "itk" ∧ suffixIsMat then false else isArray
    match parse f isArray2 with
    | Except.ok _ => ⟨[f], [], true⟩
    | Except.error e =>
      let o := tryFormats parse suffixIsMat rest isArray2
      ⟨f :: o.attempted, (f, e) :: o.collected, o.parsed⟩

/-- Full observable outcome of `from_filename`. -/
structure LoadOutcome where
  attempted : List String
  collected : List (String × String)
  result : Except LoadErr Unit

/-- The message of the final `TransformFileError` (lines 240-242):
it interpolates the file name and the comma-joined list of attempted
format names — and nothing from the collected `errors` list. -/
def errMsg (filename : String) (fmtlist : List String) : String :=
  "Could not open <" ++ filename ++ "> (formats tried: " ++
    String.intercalate (", ") fmtlist ++ ")."

/-- The loop followed by the final raise (lines 222-242): when no format
parsed, a single `TransformFileError` built by `errMsg` is raised. -/
def runFormats (parse : String → Bool → Except String Unit)
    (suffixIsMat : Bool) (filename : String) (fmtlist : List String)
    (isArrayCls : Bool) : LoadOutcome :=
  let o := tryFormats parse suffixIsMat fmtlist isArrayCls
  if o.parsed then ⟨o.attempted, o.collected, Except.ok ()⟩
  else ⟨o.attempted, o.collected,
    Except.error (LoadErr.transformFileError (errMsg filename fmtlist))⟩

/-- Embedding of `Affine.from_filename` (lines 207-242).  Filesystem and
parsers are oracle parameters: `fsExists p` models `Path(p).exists()`,
`suffixIsMat` models `Path(filename).suffix == ".mat"`, `parse` the
per-format parsing of the given file, and `isArrayCls` the initial
`is_array = cls != Affine` flag (`true` when called on
`LinearTransformsMapping`, as the top-level `load` does).  With an
explicit `fmt` and a missing file a `FileNotFoundError` is raised before
the loop — except that `fmt="fsl"` first also probes `filename + ".000"`. -/
def fromFilename (fsExists : String → Bool)
    (parse : String → Bool → Except String Unit) (suffixIsMat : Bool)
    (filename : String) (fmt : Option String) (isArrayCls : Bool) :
    LoadOutcome :=
  let fmtlist := match fmt with
    | some f => [f]
    | none => FMTLIST
  if fmt.isSome ∧ ¬ fsExists filename then
    if fmt ≠ some ("fsl") then
      ⟨[], [], Except.error (LoadErr.fileNotFound
        ("[Errno 2] No such file or directory: " ++ filename))⟩
    else if ¬ fsExists (filename ++ ".000") then
      ⟨[], [], Except.error (LoadErr.fileNotFound
        ("[Errno 2] No such file or directory: " ++ filename ++ "[.000]"))⟩
    else runFormats parse suffixIsMat filename fmtlist isArrayCls
  else runFormats parse suffixIsMat filename fmtlist isArrayCls

/-- `needle` matches the beginning of `hay`. -/
def leadsWith : List Char → List Char → Bool
  | [], _ => true
  | _ :: _, [] => false
  | a :: as, b :: bs => a == b && leadsWith as bs

/-- `needle` occurs contiguously somewhere inside `hay`. -/
def occursIn (needle : List Char) : List Char → Bool
  | [] => leadsWith needle []
  | hay@(_ :: t) => leadsWith needle hay || occursIn needle t

/-- C1 (amended): with no explicit format, when every candidate fails, the
loop attempts all four formats in order — no failure short-circuits it —
and records each format with its failure reason in the local `errors`
list; the single `TransformFileError` finally raised enumerates the
attempted formats, but the collected per-format reasons are not part of
the raised error (the `errors` list is never read). -/
theorem C1_all_formats_fail (fsExists : String → Bool)
    (parse : String → Bool → Except String Unit) (sfx : Bool)
    (filename : String) (isArr : Bool) (reasons : String → Bool → String)
    (hfail : ∀ f b, parse f b = Except.error (reasons f b)) :
    (fromFilename fsExists parse sfx filename none isArr).attempted =
      FMTLIST ∧
    (fromFilename fsExists parse sfx filename none isArr).collected.map
      Prod.fst = FMTLIST ∧
    (fromFilename fsExists parse sfx filename none isArr).result =
      Except.error (LoadErr.transformFileError (errMsg filename FMTLIST)) := by
  have hrun : ∀ (fl : List String) (b : Bool),
      (tryFormats parse sfx fl b).attempted = fl ∧
      (tryFormats parse sfx fl b).collected.map Prod.fst = fl ∧
      (tryFormats parse sfx fl b).parsed = false := by
    intro fl
    induction fl with
    | nil => intro b; exact ⟨rfl, rfl, rfl⟩
    | cons f rest ih =>
      intro b
      obtain ⟨h1, h2, h3⟩ := ih (if f = "itk" ∧ sfx then false else b)
      simp only [tryFormats, hfail]
      exact ⟨by rw [h1], by rw [List.map_cons, h2], h3⟩
  have hff : fromFilename fsExists parse sfx filename none isArr =
      runFormats parse sfx filename FMTLIST isArr := by
    unfold fromFilename
    rw [if_neg (by simp)]
  obtain ⟨ha, hc, hp⟩ := hrun FMTLIST isArr
  rw [hff]
  unfold runFormats
  simp only [hp, Bool.false_eq_true, if_false]
  exact ⟨ha, hc, by trivial⟩

/-- Parse oracle for the witnesses/counterexample below: every format
fails, each with its own distinct reason. -/
def cexParse (f : String) (_ : Bool) : Except String Unit :=
  Except.error ("reason-" ++ f)

theorem C1_all_formats_fail_witness :
    (fromFilename (fun _ => true) cexParse false ("x.tfm") none
      true).attempted = FMTLIST :=
  (C1_all_formats_fail (fun _ => true) cexParse false ("x.tfm") true
    (fun f _ => "reason-" ++ f) (fun _ _ => rfl)).1

/-- C1 counterexample: with all four candidate parsers failing (each for
its own recorded reason), the single error raised is the
`TransformFileError` whose message enumerates the attempted formats — but
none of the collected failure reasons occurs in that message, refuting the
part of the claim that says the error lists, "for each attempted format,
that format failure reason". -/
theorem C1_counterexample :
    (fromFilename (fun _ => true) cexParse false ("x.tfm") none
        true).result =
      Except.error (LoadErr.transformFileError (errMsg ("x.tfm") FMTLIST)) ∧
    (fromFilename (fun _ => true) cexParse false ("x.tfm") none
        true).collected =
      [("itk", "reason-itk"), ("lta", "reason-lta"), ("afni", "reason-afni"),
        ("fsl", "reason-fsl")] ∧
    errMsg ("x.tfm") FMTLIST =
      "Could not open <x.tfm> (formats tried: itk, lta, afni, fsl)." ∧
    occursIn (String.data ("itk")) (String.data (errMsg ("x.tfm") FMTLIST)) =
      true ∧
    occursIn (String.data ("reason-itk"))
      (String.data (errMsg ("x.tfm") FMTLIST)) = false :=
  ⟨rfl, rfl, rfl, rfl, rfl⟩

/-- C10: calling `from_filename` with an explicit `fmt` on a file that does
not exist raises `FileNotFoundError` before any format parser is invoked
(`attempted = []`) — except that for `fmt="fsl"` the error is raised only
when `filename + ".000"` does not exist either; when that sibling exists,
no file-not-found error is raised and the fsl parser is attempted. -/
theorem C10_missing_file (fsExists : String → Bool)
    (parse : String → Bool → Except String Unit) (sfx : Bool)
    (filename : String) (f : String) (isArr : Bool)
    (hmiss : fsExists filename = false) :
    (f ≠ "fsl" →
      fromFilename fsExists parse sfx filename (some f) isArr =
        ⟨[], [], Except.error (LoadErr.fileNotFound
          ("[Errno 2] No such file or directory: " ++ filename))⟩) ∧
    (fsExists (filename ++ ".000") = false →
      fromFilename fsExists parse sfx filename (some ("fsl")) isArr =
        ⟨[], [], Except.error (LoadErr.fileNotFound
          ("[Errno 2] No such file or directory: " ++ filename ++
            "[.000]"))⟩) ∧
    (fsExists (filename ++ ".000") = true →
      (fromFilename fsExists parse sfx filename (some ("fsl"))
        isArr).attempted = ["fsl"]) := by
  refine ⟨?_, ?_, ?_⟩
  · intro hf
    simp [fromFilename, hmiss, hf]
  · intro h000
    simp [fromFilename, hmiss, h000]
  · intro h000
    have hff : fromFilename fsExists parse sfx filename (some ("fsl"))
        isArr = runFormats parse sfx filename ["fsl"] isArr := by
      simp [fromFilename, hmiss, h000]
    rw [hff]
    unfold runFormats
    cases hp : parse "fsl" isArr with
    | ok u => simp [tryFormats, hp]
    | error e => simp [tryFormats, hp]

theorem C10_missing_file_witness :
    fromFilename (fun _ => false) cexParse false ("miss.tfm") (some ("itk"))
        true =
      ⟨[], [], Except.error (LoadErr.fileNotFound
        ("[Errno 2] No such file or directory: " ++ "miss.tfm"))⟩ ∧
    fromFilename (fun _ => false) cexParse false ("xf") (some ("fsl"))
        true =
      ⟨[], [], Except.error (LoadErr.fileNotFound
        ("[Errno 2] No such file or directory: " ++ "xf" ++ "[.000]"))⟩ ∧
    (fromFilename (fun p => p == "xf" ++ ".000") cexParse false ("xf")
      (some ("fsl")) true).attempted = ["fsl"] :=
  ⟨(C10_missing_file (fun _ => false) cexParse false ("miss.tfm") "itk"
      true rfl).1 (by decide),
   (C10_missing_file (fun _ => false) cexParse false ("xf") "fsl"
      true rfl).2.1 rfl,
   (C10_missing_file (fun p => p == "xf" ++ ".000") cexParse false ("xf")
      "fsl" true (by decide)).2.2 (by decide)⟩
